import Mathlib

/-!
Shallow embedding of the `gsa_framework` orchestration notebooks.

The repository consists of two notebook variants of the same GSA
(global sensitivity analysis) experiment driver:

* `dev/run_gsa.ipynb` (embedded in namespace `RunGsa`): builds a model
  registry, then for each selected (model name, GSA method) pair creates
  the model output directory if missing, constructs a `gf.Problem`,
  loads the persisted sensitivity results via `pickle.load` from
  `problem.gsa_dict["sa_results"]`, and issues one
  `problem.plot_sa_results({name: values}, model.influential_params)`
  call per entry of the loaded result mapping.

* the unnamed dask-capable notebook (embedded in namespace `DaskGsa`):
  same registry shape, a `use_dask` switch choosing between
  `dask.delayed(gf.Problem)` and `gf.Problem` as the per-pair worker, a
  per-method iteration override, a `model_evals` accumulator, and a
  final `dask.compute(model_evals)` call.  Its plotting block is
  commented out.

External effects (the `gf.Problem` constructor raising, `pickle.load`,
`plot_sa_results`, `gsa_dict`) are modelled as oracle parameters; file
system directory existence is modelled as a set (list) of paths.
-/

namespace GsaSpec

/-- File system paths as lists of segments (`pathlib.Path`); `p / s`
    is `pathJoin p s`. -/
abbrev FsPath := List String

def pathJoin (p : FsPath) (s : String) : FsPath := p ++ [s]

/-- Exceptions are modelled by an error message. -/
abbrev Err := String

/-- Values of one sensitivity index (contents are opaque to the driver). -/
abbrev IndexValues := List Int

/-- An external model object as the driver sees it: an identity tag for
    the underlying Python object, `num_params`, and `influential_params`. -/
structure Model where
  tag : String
  num_params : Nat
  influential_params : List Nat
deriving Repr, DecidableEq

/-- A precomputed sample matrix (always `None` in these notebooks). -/
abbrev SampleMatrix := List (List Int)

/-- One entry of `models_dict`:
    `dict(model = ..., write_dir = ..., iterations = ..., const = ...)`. -/
structure ModelConfig where
  model : Model
  write_dir : FsPath
  iterations : Nat
  const : Nat
deriving Repr, DecidableEq

/-- The keyword arguments of one `gf.Problem(...)` call. -/
structure ProblemArgs where
  sampler : String
  model : Model
  interpreter : String
  write_dir : FsPath
  iterations : Option Nat
  seed : Nat
  X : Option SampleMatrix
deriving Repr, DecidableEq

/-- The Problem descriptor: the seven fields the constructor stores. -/
structure Problem where
  sampler : String
  model : Model
  interpreter : String
  write_dir : FsPath
  iterations : Option Nat
  seed : Nat
  X : Option SampleMatrix
deriving Repr, DecidableEq

/-- `gf.Problem(**args)`: the descriptor carries exactly the seven
    arguments of the call. -/
def mkProblem (a : ProblemArgs) : Problem :=
  ⟨a.sampler, a.model, a.interpreter, a.write_dir, a.iterations, a.seed, a.X⟩

/-- `models_dict[name]` (Python dict lookup; `none` models `KeyError`). -/
def lookupCfg (reg : List (String × ModelConfig)) (name : String) :
    Option ModelConfig :=
  (reg.find? (fun kv => kv.1 == name)).map Prod.snd

/-- `write_dir.mkdir(parents=True, exist_ok=True)` creates the directory
    together with all its missing ancestors. -/
def ancestors (d : FsPath) : List FsPath :=
  (List.range d.length).map (fun i => d.take (i + 1))

def mkdirParents (dirs : List FsPath) (d : FsPath) : List FsPath :=
  dirs ++ (ancestors d).filter (fun a => ¬ a ∈ dirs)

/-- Mutable state the driver loops touch: the directories of the file system
    and the `models_dict` registry (which the loops read and, as proved
    below, never write). -/
structure DriverSt where
  dirs : List FsPath
  registry : List (String × ModelConfig)
deriving Repr, DecidableEq

namespace RunGsa

/-! ## `dev/run_gsa.ipynb` -/

/-- Values produced by the external framework and the LCA database when
    the registry is built: parameter counts of externally constructed
    models and their `influential_params`.  `gf.Morris(num_params=50,
    num_influential=5)` fixes the Morris parameter count to 50; the
    others are external. -/
structure ExternalModels where
  lca_num_params : Nat
  lca_influential : List Nat
  moon_num_params : Nat
  moon_influential : List Nat
  sl_num_params : Nat
  sl_influential : List Nat
  morris_influential : List Nat
deriving Repr, DecidableEq

def path_base : FsPath := ["paper_gsa"]

def write_dir_lca : FsPath := pathJoin path_base "lca_model"
def write_dir_moon : FsPath := pathJoin path_base "moon_model"
def write_dir_morris : FsPath := pathJoin path_base "morris_model"
def write_dir_SL : FsPath := pathJoin path_base "sobol_levitan_model"

def model_lca (e : ExternalModels) : Model :=
  ⟨"lca", e.lca_num_params, e.lca_influential⟩
def model_moon (e : ExternalModels) : Model :=
  ⟨"moon", e.moon_num_params, e.moon_influential⟩
def model_morris (e : ExternalModels) : Model :=
  ⟨"morris", 50, e.morris_influential⟩
def model_SL (e : ExternalModels) : Model :=
  ⟨"sobol_levitan", e.sl_num_params, e.sl_influential⟩

def const_lca : Nat := 2
def const_moon (e : ExternalModels) : Nat := (model_moon e).num_params
def const_morris (e : ExternalModels) : Nat := (model_morris e).num_params * 2
def const_SL (e : ExternalModels) : Nat := (model_SL e).num_params

def iterations_lca (e : ExternalModels) : Nat :=
  (model_lca e).num_params * const_lca
def iterations_moon (e : ExternalModels) : Nat :=
  (model_moon e).num_params * const_moon e
def iterations_morris (e : ExternalModels) : Nat :=
  (model_morris e).num_params * const_morris e
def iterations_SL (e : ExternalModels) : Nat :=
  (model_SL e).num_params * const_SL e

def models_dict (e : ExternalModels) : List (String × ModelConfig) :=
  [("lca", ⟨model_lca e, write_dir_lca, iterations_lca e, const_lca⟩),
   ("moon", ⟨model_moon e, write_dir_moon, iterations_moon e, const_moon e⟩),
   ("morris", ⟨model_morris e, write_dir_morris, iterations_morris e, const_morris e⟩),
   ("sobol_levitan", ⟨model_SL e, write_dir_SL, iterations_SL e, const_SL e⟩)]

def gsa_methods : List String :=
  ["correlation_coefficients", "sobol_indices", "eFAST_indices", "xgboost"]

def model_names : List String := ["morris", "sobol_levitan"]

/-- Observable actions of the driver loop. -/
inductive Event where
  | mkdirEv (d : FsPath)
  | constructEv (p : Problem)
  | loadEv (file : FsPath)
  | plotEv (p : Problem) (idx : String × IndexValues) (infl : List Nat)
deriving Repr, DecidableEq

/-- External behaviour: whether `gf.Problem` raises on given arguments,
    `problem.gsa_dict[key]`, whether `open`/`pickle.load` raises on a
    file, the deserialized result mapping (as an ordered association
    list, Python dicts being ordered), and whether `plot_sa_results`
    raises on a call. -/
structure External where
  constructEff : ProblemArgs → Option Err
  gsa_dict : Problem → String → FsPath
  loadEff : FsPath → Option Err
  loadResult : FsPath → List (String × IndexValues)
  plotEff : Problem → String × IndexValues → List Nat → Option Err

/-- The keyword arguments of the `gf.Problem(...)` call for one
    (model, method) pair: `sampler="random"`, the model and write_dir of
    the registry entry, `interpreter=gsa_method`,
    `iterations=models_dict[model_name]["iterations"]`, `seed=34534`,
    `X=None`. -/
def problemArgsFor (cfg : ModelConfig) (g : String) : ProblemArgs :=
  ⟨"random", cfg.model, g, cfg.write_dir, some cfg.iterations, 34534, none⟩

/-- `for sa_index_name, sa_index_values in sa_results.items():
    problem.plot_sa_results({sa_index_name: sa_index_values},
    model.influential_params)` — the `try`/`except` around the call is
    commented out, so a raising call ends the run.  Returns the events
    of this loop and the exception, if any, it stopped on. -/
def plotLoop (ext : External) (p : Problem) (infl : List Nat) :
    List (String × IndexValues) → List Event × Option Err
  | [] => ([], none)
  | nv :: rest =>
    match ext.plotEff p nv infl with
    | some err => ([Event.plotEv p nv infl], some err)
    | none =>
      let tail := plotLoop ext p infl rest
      (Event.plotEv p nv infl :: tail.1, tail.2)

/-- Body of the inner `for gsa_method in gsa_methods` loop: construct
    the Problem, read `problem.gsa_dict["sa_results"]`, unpickle it, and
    plot each entry.  (`models_dict[model_name]["iterations"]` is read
    from the registry, which no step modifies, so it is the `iterations`
    field of the entry.)  The inner loop touches no driver state, so it
    returns only events and a possible exception. -/
def methodStep (ext : External) (cfg : ModelConfig) (g : String) :
    List Event × Option Err :=
  match ext.constructEff (problemArgsFor cfg g) with
  | some err => ([], some err)
  | none =>
    let p := mkProblem (problemArgsFor cfg g)
    let file := ext.gsa_dict p "sa_results"
    match ext.loadEff file with
    | some err => ([Event.constructEv p, Event.loadEv file], some err)
    | none =>
      let tail := plotLoop ext p cfg.model.influential_params (ext.loadResult file)
      (Event.constructEv p :: Event.loadEv file :: tail.1, tail.2)

def methodsLoop (ext : External) (cfg : ModelConfig) :
    List String → List Event × Option Err
  | [] => ([], none)
  | g :: gs =>
    match methodStep ext cfg g with
    | (evs, some err) => (evs, some err)
    | (evs, none) =>
      let tail := methodsLoop ext cfg gs
      (evs ++ tail.1, tail.2)

/-- Body of the outer `for model_name in model_names` loop: look the
    name up in `models_dict` (a misspelt name raises `KeyError`), create
    the write directory if absent, then run all methods. -/
def modelStep (ext : External) (methods : List String) (name : String)
    (st : DriverSt) : DriverSt × List Event × Option Err :=
  match lookupCfg st.registry name with
  | none => (st, [], some "KeyError")
  | some cfg =>
    let mk1 : DriverSt × List Event :=
      if cfg.write_dir ∈ st.dirs then (st, [])
      else ({ st with dirs := mkdirParents st.dirs cfg.write_dir },
            [Event.mkdirEv cfg.write_dir])
    let inner := methodsLoop ext cfg methods
    (mk1.1, mk1.2 ++ inner.1, inner.2)

def modelsLoop (ext : External) (methods : List String) :
    List String → DriverSt → DriverSt × List Event × Option Err
  | [], st => (st, [], none)
  | n :: ns, st =>
    match modelStep ext methods n st with
    | (st1, evs, some err) => (st1, evs, some err)
    | (st1, evs, none) =>
      let tail := modelsLoop ext methods ns st1
      (tail.1, evs ++ tail.2.1, tail.2.2)

/-- The whole driver cell, starting from the freshly built registry and
    an arbitrary pre-existing file system. -/
def runDriver (ext : External) (e : ExternalModels)
    (names methods : List String) (dirs0 : List FsPath) :
    DriverSt × List Event × Option Err :=
  modelsLoop ext methods names ⟨dirs0, models_dict e⟩

end RunGsa

namespace DaskGsa

/-! ## The unnamed dask-capable notebook (`src/unnamed/part_000`) -/

/-- External values fixed when this notebook builds its registry:
    here `gf.Morris(num_params=100, num_influential=20)` and
    `gf.SobolLevitan(num_params=100)` fix those parameter counts. -/
structure ExternalModels where
  lca_num_params : Nat
  lca_influential : List Nat
  moon_num_params : Nat
  moon_influential : List Nat
  morris_influential : List Nat
  sl_influential : List Nat
deriving Repr, DecidableEq

def path_base : FsPath := ["paper_gsa"]

def write_dir_lca : FsPath := pathJoin path_base "lca_model"
def write_dir_moon : FsPath := pathJoin path_base "moon_model"
def write_dir_morris : FsPath := pathJoin path_base "morris_model"
def write_dir_SL : FsPath := pathJoin path_base "sobol_levitan_model"

def model_lca (e : ExternalModels) : Model :=
  ⟨"lca", e.lca_num_params, e.lca_influential⟩
def model_moon (e : ExternalModels) : Model :=
  ⟨"moon", e.moon_num_params, e.moon_influential⟩
def model_morris (e : ExternalModels) : Model :=
  ⟨"morris", 100, e.morris_influential⟩
def model_SL (e : ExternalModels) : Model :=
  ⟨"sobol_levitan", 100, e.sl_influential⟩

def const_lca : Nat := 2
def const_moon : Nat := 2
def const_morris : Nat := 2
def const_SL : Nat := 2

def iterations_lca (e : ExternalModels) : Nat :=
  (model_lca e).num_params * const_lca
def iterations_moon (e : ExternalModels) : Nat :=
  (model_moon e).num_params * const_moon
def iterations_morris (e : ExternalModels) : Nat :=
  (model_morris e).num_params * const_morris
def iterations_SL (e : ExternalModels) : Nat :=
  (model_SL e).num_params * const_SL

def models_dict (e : ExternalModels) : List (String × ModelConfig) :=
  [("lca", ⟨model_lca e, write_dir_lca, iterations_lca e, const_lca⟩),
   ("moon", ⟨model_moon e, write_dir_moon, iterations_moon e, const_moon⟩),
   ("morris", ⟨model_morris e, write_dir_morris, iterations_morris e, const_morris⟩),
   ("sobol_levitan", ⟨model_SL e, write_dir_SL, iterations_SL e, const_SL⟩)]

/-- The uncommented selections of this notebook. -/
def gsa_methods : List String := ["correlation_coefficients"]

def model_names : List String := ["lca"]

/-- What `model_evals.append(problem)` receives: either the `Delayed`
    object `dask.delayed(gf.Problem)(**kwargs)` — the constructor call
    deferred, its arguments stored — or the Problem built by an
    immediate `gf.Problem(**kwargs)` call. -/
inductive Eval where
  | delayedEval (a : ProblemArgs)
  | problemEval (p : Problem)
deriving Repr, DecidableEq

/-- `if gsa_method == "eFAST_indices": iterations = 130
    elif gsa_method == "correlation_coefficients": iterations = None
    else: iterations = models_dict[model_name]["iterations"]`. -/
def iterationsFor (cfg : ModelConfig) (g : String) : Option Nat :=
  if g == "eFAST_indices" then some 130
  else if g == "correlation_coefficients" then none
  else some cfg.iterations

/-- The keyword arguments of the per-pair `problem_per_worker(...)`
    call in this notebook. -/
def problemArgsFor (cfg : ModelConfig) (g : String) : ProblemArgs :=
  ⟨"random", cfg.model, g, cfg.write_dir, iterationsFor cfg g, 34534, none⟩

/-- Inner loop body: `problem = problem_per_worker(...)`;
    `model_evals.append(problem)`.  With `use_dask` the worker is
    `dask.delayed(gf.Problem)` (no construction yet); without it the
    worker is `gf.Problem` itself (construction happens now).  Returns
    what is appended to `model_evals` and the constructor calls made. -/
def methodStep (use_dask : Bool) (cfg : ModelConfig) (g : String) :
    List Eval × List ProblemArgs :=
  let args := problemArgsFor cfg g
  if use_dask then ([Eval.delayedEval args], [])
  else ([Eval.problemEval (mkProblem args)], [args])

def methodsLoop (use_dask : Bool) (cfg : ModelConfig) :
    List String → List Eval × List ProblemArgs
  | [] => ([], [])
  | g :: gs =>
    let hd := methodStep use_dask cfg g
    let tail := methodsLoop use_dask cfg gs
    (hd.1 ++ tail.1, hd.2 ++ tail.2)

/-- Outer loop body: registry lookup (`KeyError` on a missing name),
    `write_dir.mkdir(parents=True, exist_ok=True)` if the directory does
    not exist, then the inner loop. -/
def modelStep (use_dask : Bool) (methods : List String) (name : String)
    (st : DriverSt) : DriverSt × List Eval × List ProblemArgs × Option Err :=
  match lookupCfg st.registry name with
  | none => (st, [], [], some "KeyError")
  | some cfg =>
    let st1 : DriverSt :=
      if cfg.write_dir ∈ st.dirs then st
      else { st with dirs := mkdirParents st.dirs cfg.write_dir }
    let inner := methodsLoop use_dask cfg methods
    (st1, inner.1, inner.2, none)

def modelsLoop (use_dask : Bool) (methods : List String) :
    List String → DriverSt → DriverSt × List Eval × List ProblemArgs × Option Err
  | [], st => (st, [], [], none)
  | n :: ns, st =>
    match modelStep use_dask methods n st with
    | (st1, evals, cons, some err) => (st1, evals, cons, some err)
    | (st1, evals, cons, none) =>
      let tail := modelsLoop use_dask methods ns st1
      (tail.1, evals ++ tail.2.1, cons ++ tail.2.2.1, tail.2.2.2)

/-- The driver cell, starting from the freshly built registry, an empty
    `model_evals` and an arbitrary pre-existing file system. -/
def runDriver (use_dask : Bool) (e : ExternalModels)
    (names methods : List String) (dirs0 : List FsPath) :
    DriverSt × List Eval × List ProblemArgs × Option Err :=
  modelsLoop use_dask methods names ⟨dirs0, models_dict e⟩

/-- Forcing one element of `model_evals` at `dask.compute` time: a
    `Delayed` performs its stored constructor call now; a Problem built
    earlier passes through unchanged. -/
def evalConstructions : Eval → List ProblemArgs
  | .delayedEval a => [a]
  | .problemEval _ => []

def evalForce : Eval → Problem
  | .delayedEval a => mkProblem a
  | .problemEval p => p

/-- `dask.compute(model_evals)`: the constructor calls it performs, and
    the resulting Problems. -/
def daskCompute (ts : List Eval) : List ProblemArgs × List Problem :=
  (ts.flatMap evalConstructions, ts.map evalForce)

/-- All `gf.Problem` constructor calls of a full run (driver cell, then
    the `dask.compute` cell), in order, with their arguments. -/
def runConstructions (use_dask : Bool) (e : ExternalModels)
    (names methods : List String) (dirs0 : List FsPath) : List ProblemArgs :=
  let r := runDriver use_dask e names methods dirs0
  r.2.2.1 ++ (daskCompute r.2.1).1

/-- The Problems a full run ends with (the values `dask.compute`
    returns; without dask, compute passes the built Problems through). -/
def runProblems (use_dask : Bool) (e : ExternalModels)
    (names methods : List String) (dirs0 : List FsPath) : List Problem :=
  (daskCompute (runDriver use_dask e names methods dirs0).2.1).2

end DaskGsa

/-! ## Statement vocabulary -/

/-- The (model name, GSA method) pairs in the order the nested loops
    visit them: model-major, method-minor. -/
def pairsOf (names methods : List String) : List (String × String) :=
  names.flatMap (fun m => methods.map (fun g => (m, g)))

def defaultCfg : ModelConfig := ⟨⟨"", 0, []⟩, [], 0, 0⟩

/-- The registry entry for a name known to be registered. -/
def cfgOf (reg : List (String × ModelConfig)) (n : String) : ModelConfig :=
  (lookupCfg reg n).getD defaultCfg

/-- All selected names are keys of the registry (no `KeyError`). -/
def Registered (reg : List (String × ModelConfig)) (names : List String) : Prop :=
  ∀ n ∈ names, (lookupCfg reg n).isSome

namespace RunGsa

/-- No external call raises during the run. -/
def NoFailures (ext : External) : Prop :=
  (∀ a, ext.constructEff a = none) ∧ (∀ f, ext.loadEff f = none) ∧
    (∀ p nv infl, ext.plotEff p nv infl = none)

/-- The events one exception-free (model, method) iteration produces:
    the Problem construction, the load of the persisted result file, and
    one plot call per entry of the deserialized result mapping. -/
def pairSegment (ext : External) (cfg : ModelConfig) (g : String) : List Event :=
  let p := mkProblem (problemArgsFor cfg g)
  let file := ext.gsa_dict p "sa_results"
  Event.constructEv p :: Event.loadEv file ::
    (ext.loadResult file).map
      (fun nv => Event.plotEv p nv cfg.model.influential_params)

/-- The Problem descriptors a trace constructs, in order. -/
def constructedProblems (evs : List Event) : List Problem :=
  evs.filterMap (fun ev =>
    match ev with
    | Event.constructEv p => some p
    | _ => none)

/-- Replay the directory creations of a trace over the file system. -/
def dirsAfter (dirs : List FsPath) : List Event → List FsPath
  | [] => dirs
  | Event.mkdirEv d :: evs => dirsAfter (mkdirParents dirs d) evs
  | Event.constructEv _ :: evs => dirsAfter dirs evs
  | Event.loadEv _ :: evs => dirsAfter dirs evs
  | Event.plotEv _ _ _ :: evs => dirsAfter dirs evs

/-- Directory discipline of a trace, replayed from a file system state:
    a directory is created (with its ancestors) only while absent, and
    every Problem construction happens while its output directory
    exists. -/
inductive SafeTrace : List FsPath → List Event → Prop
  | nil : ∀ dirs, SafeTrace dirs []
  | mkdirStep : ∀ dirs d evs, ¬ d ∈ dirs →
      SafeTrace (mkdirParents dirs d) evs →
      SafeTrace dirs (Event.mkdirEv d :: evs)
  | constructStep : ∀ dirs p evs, p.write_dir ∈ dirs →
      SafeTrace dirs evs →
      SafeTrace dirs (Event.constructEv p :: evs)
  | loadStep : ∀ dirs f evs, SafeTrace dirs evs →
      SafeTrace dirs (Event.loadEv f :: evs)
  | plotStep : ∀ dirs p nv infl evs, SafeTrace dirs evs →
      SafeTrace dirs (Event.plotEv p nv infl :: evs)

/-- Events the inner loop may emit: never a directory creation, and any
    construction writes to the given directory. -/
def innerEvent (wd : FsPath) : Event → Prop
  | Event.mkdirEv _ => False
  | Event.constructEv p => p.write_dir = wd
  | Event.loadEv _ => True
  | Event.plotEv _ _ _ => True

end RunGsa

namespace DaskGsa

/-- What one `problem_per_worker` call appends to `model_evals`. -/
def evalFor (use_dask : Bool) (cfg : ModelConfig) (g : String) : Eval :=
  if use_dask then Eval.delayedEval (problemArgsFor cfg g)
  else Eval.problemEval (mkProblem (problemArgsFor cfg g))

end DaskGsa

/-! ## Concrete external behaviours, for evaluating the theorems -/

/-- A failure-free external behaviour. -/
def extOk : RunGsa.External :=
  ⟨fun _ => none, fun _ _ => ["results.pickle"], fun _ => none,
   fun _ => [("spearman", [1, 2]), ("pearson", [3])], fun _ _ _ => none⟩

/-- An external behaviour whose plotting calls raise. -/
def extPlotFail : RunGsa.External :=
  ⟨fun _ => none, fun _ _ => ["results.pickle"], fun _ => none,
   fun _ => [("spearman", [1, 2])], fun _ _ _ => some "ValueError"⟩

/-- Concrete external model data for the `run_gsa` notebook. -/
def eAW : RunGsa.ExternalModels := ⟨3, [0], 2, [0, 1], 4, [0], [0, 1]⟩

/-- Concrete external model data for the dask notebook. -/
def eBW : DaskGsa.ExternalModels := ⟨3, [0], 2, [0, 1], [0], [0]⟩

/-- The `lca` registry entry built from `eAW`. -/
def lcaCfgW : ModelConfig :=
  ⟨RunGsa.model_lca eAW, RunGsa.write_dir_lca, RunGsa.iterations_lca eAW,
   RunGsa.const_lca⟩

/-! ## Basic lemmas -/

theorem lookupCfg_mem {reg : List (String × ModelConfig)} {name : String}
    {cfg : ModelConfig} (h : lookupCfg reg name = some cfg) :
    (name, cfg) ∈ reg := by
  unfold lookupCfg at h
  cases hf : reg.find? (fun kv => kv.1 == name) with
  | none => simp [hf] at h
  | some kv =>
    have hmem := List.mem_of_find?_eq_some hf
    have hbeq := List.find?_some hf
    simp [hf] at h
    obtain ⟨k, c⟩ := kv
    simp at hbeq h
    subst hbeq h
    exact hmem

theorem cfgOf_eq {reg : List (String × ModelConfig)} {name : String}
    {cfg : ModelConfig} (h : lookupCfg reg name = some cfg) :
    cfgOf reg name = cfg := by
  simp [cfgOf, h]

theorem pairsOf_nil (methods : List String) : pairsOf [] methods = [] := rfl

theorem pairsOf_cons (n : String) (ns methods : List String) :
    pairsOf (n :: ns) methods =
      methods.map (fun g => (n, g)) ++ pairsOf ns methods := by
  simp [pairsOf]

theorem pairsOf_eq_product (names methods : List String) :
    pairsOf names methods = names ×ˢ methods := rfl

theorem pairsOf_length (names methods : List String) :
    (pairsOf names methods).length = names.length * methods.length := by
  rw [pairsOf_eq_product]
  exact List.length_product names methods

theorem pairsOf_nodup {names methods : List String}
    (h1 : names.Nodup) (h2 : methods.Nodup) : (pairsOf names methods).Nodup := by
  rw [pairsOf_eq_product]
  exact List.Nodup.product h1 h2

theorem mem_pairsOf {names methods : List String} {m g : String} :
    (m, g) ∈ pairsOf names methods ↔ m ∈ names ∧ g ∈ methods := by
  rw [pairsOf_eq_product]
  exact List.mem_product

theorem length_filter_eq_one_of_nodup {α : Type} [DecidableEq α] {l : List α}
    {a : α} (hn : l.Nodup) (hm : a ∈ l) :
    (l.filter (fun x => x = a)).length = 1 := by
  induction l with
  | nil => simp at hm
  | cons b bs ih =>
    rw [List.nodup_cons] at hn
    rw [List.mem_cons] at hm
    rcases hm with rfl | hm
    · have hnil : bs.filter (fun x => x = a) = [] := by
        rw [List.filter_eq_nil_iff]
        intro x hx
        simp only [decide_eq_true_eq]
        intro hxa
        exact hn.1 (hxa ▸ hx)
      simp [List.filter_cons, hnil]
    · have hba : ¬ b = a := by
        intro hba
        exact hn.1 (hba ▸ hm)
      simp [List.filter_cons, hba, ih hn.2 hm]

theorem pairsOf_filter_eq_one {names methods : List String} {m g : String}
    (h1 : names.Nodup) (h2 : methods.Nodup) (hm : m ∈ names) (hg : g ∈ methods) :
    ((pairsOf names methods).filter (fun mg => mg = (m, g))).length = 1 :=
  length_filter_eq_one_of_nodup (pairsOf_nodup h1 h2) (mem_pairsOf.mpr ⟨hm, hg⟩)

/-- Self-membership after `mkdir(parents=True)`, for a nonempty path. -/
theorem self_mem_mkdirParents (dirs : List FsPath) {d : FsPath} (hd : d ≠ []) :
    d ∈ mkdirParents dirs d := by
  by_cases h : d ∈ dirs
  · exact List.mem_append_left _ h
  · refine List.mem_append_right _ ?_
    rw [List.mem_filter]
    refine ⟨?_, by simpa using h⟩
    unfold ancestors
    have hlen : 0 < d.length := List.length_pos.mpr hd
    refine List.mem_map.mpr ⟨d.length - 1, ?_, ?_⟩
    · simp [List.mem_range]
      omega
    · have : d.length - 1 + 1 = d.length := by omega
      rw [this, List.take_length]

theorem mem_mkdirParents_of_mem {dirs : List FsPath} {x : FsPath}
    (h : x ∈ dirs) (d : FsPath) : x ∈ mkdirParents dirs d :=
  List.mem_append_left _ h

namespace RunGsa

/-! ## Exception-free runs of the local driver -/

theorem plotLoop_ok (ext : External) (p : Problem) (infl : List Nat)
    (hplot : ∀ q nv l, ext.plotEff q nv l = none) (rs : List (String × IndexValues)) :
    plotLoop ext p infl rs = (rs.map (fun nv => Event.plotEv p nv infl), none) := by
  induction rs with
  | nil => rfl
  | cons nv rest ih => simp [plotLoop, hplot, ih]

theorem methodStep_ok (ext : External) (cfg : ModelConfig) (g : String)
    (h : NoFailures ext) :
    methodStep ext cfg g = (pairSegment ext cfg g, none) := by
  obtain ⟨hc, hl, hp⟩ := h
  simp [methodStep, pairSegment, hc, hl, plotLoop_ok ext _ _ hp]

theorem methodsLoop_ok (ext : External) (cfg : ModelConfig)
    (h : NoFailures ext) (gs : List String) :
    methodsLoop ext cfg gs = (gs.flatMap (pairSegment ext cfg), none) := by
  induction gs with
  | nil => rfl
  | cons g gs ih => simp [methodsLoop, methodStep_ok ext cfg g h, ih]

theorem modelStep_ok (ext : External) (methods : List String) (name : String)
    (st : DriverSt) (cfg : ModelConfig)
    (hfound : lookupCfg st.registry name = some cfg) (h : NoFailures ext) :
    modelStep ext methods name st =
      ((if cfg.write_dir ∈ st.dirs then st
          else { st with dirs := mkdirParents st.dirs cfg.write_dir }),
       (if cfg.write_dir ∈ st.dirs then ([] : List Event)
          else [Event.mkdirEv cfg.write_dir]) ++
         methods.flatMap (pairSegment ext cfg),
       none) := by
  by_cases hd : cfg.write_dir ∈ st.dirs <;>
    simp [modelStep, hfound, methodsLoop_ok ext cfg h, hd]

/-! ## Frame facts: the loops never write the registry -/

theorem modelStep_registry (ext : External) (methods : List String)
    (name : String) (st : DriverSt) :
    (modelStep ext methods name st).1.registry = st.registry := by
  unfold modelStep
  cases hfind : lookupCfg st.registry name with
  | none => rfl
  | some cfg => by_cases hd : cfg.write_dir ∈ st.dirs <;> simp [hd]

theorem modelsLoop_registry (ext : External) (methods : List String) :
    ∀ (names : List String) (st : DriverSt),
      (modelsLoop ext methods names st).1.registry = st.registry := by
  intro names
  induction names with
  | nil => intro st; rfl
  | cons n ns ih =>
    intro st
    unfold modelsLoop
    cases hstep : modelStep ext methods n st with
    | mk st1 rest =>
      have hr : st1.registry = st.registry := by
        have := modelStep_registry ext methods n st
        rw [hstep] at this
        exact this
      cases rest with
      | mk evs err =>
        cases err with
        | none => simpa [hr] using ih st1
        | some e => simpa using hr

/-! ## The constructed-problem trace of an exception-free run -/

theorem constructedProblems_append (evs1 evs2 : List Event) :
    constructedProblems (evs1 ++ evs2) =
      constructedProblems evs1 ++ constructedProblems evs2 :=
  List.filterMap_append evs1 evs2 _

theorem constructedProblems_pairSegment (ext : External) (cfg : ModelConfig)
    (g : String) :
    constructedProblems (pairSegment ext cfg g) =
      [mkProblem (problemArgsFor cfg g)] := by
  simp [constructedProblems, pairSegment, List.filterMap_map, Function.comp]

theorem constructedProblems_flatMap (ext : External) (cfg : ModelConfig)
    (gs : List String) :
    constructedProblems (gs.flatMap (pairSegment ext cfg)) =
      gs.map (fun g => mkProblem (problemArgsFor cfg g)) := by
  induction gs with
  | nil => rfl
  | cons g gs ih =>
    rw [List.flatMap_cons, constructedProblems_append, ih,
      constructedProblems_pairSegment]
    rfl

theorem modelsLoop_constructed (ext : External) (methods : List String)
    (h : NoFailures ext) :
    ∀ (names : List String) (st : DriverSt),
      Registered st.registry names →
      constructedProblems (modelsLoop ext methods names st).2.1 =
        (pairsOf names methods).map
          (fun mg => mkProblem (problemArgsFor (cfgOf st.registry mg.1) mg.2)) := by
  intro names
  induction names with
  | nil => intro st _; rfl
  | cons n ns ih =>
    intro st hreg
    obtain ⟨cfg, hcfg⟩ := Option.isSome_iff_exists.mp (hreg n (by simp))
    rw [modelsLoop, modelStep_ok ext methods n st cfg hcfg h]
    set st1 : DriverSt :=
      if cfg.write_dir ∈ st.dirs then st
        else { st with dirs := mkdirParents st.dirs cfg.write_dir } with hst1
    have hreg1 : st1.registry = st.registry := by
      rw [hst1]; by_cases hd : cfg.write_dir ∈ st.dirs <;> simp [hd]
    have htail := ih st1 (by
      rw [hreg1]
      intro x hx
      exact hreg x (List.mem_cons_of_mem n hx))
    simp only []
    rw [constructedProblems_append, constructedProblems_append]
    rw [constructedProblems_flatMap, htail, hreg1]
    rw [pairsOf_cons, List.map_append]
    have hmk : constructedProblems
        (if cfg.write_dir ∈ st.dirs then ([] : List Event)
          else [Event.mkdirEv cfg.write_dir]) = [] := by
      by_cases hd : cfg.write_dir ∈ st.dirs <;>
        simp [hd, constructedProblems]
    rw [hmk]
    simp [cfgOf_eq hcfg]

/-! ## Directory discipline of the local driver (any oracle behaviour) -/

theorem dirsAfter_append (dirs : List FsPath) (evs1 evs2 : List Event) :
    dirsAfter dirs (evs1 ++ evs2) = dirsAfter (dirsAfter dirs evs1) evs2 := by
  induction evs1 generalizing dirs with
  | nil => rfl
  | cons ev evs ih => cases ev <;> simp [dirsAfter, ih]

theorem SafeTrace.append {dirs : List FsPath} {evs1 evs2 : List Event}
    (h1 : SafeTrace dirs evs1) (h2 : SafeTrace (dirsAfter dirs evs1) evs2) :
    SafeTrace dirs (evs1 ++ evs2) := by
  induction h1 with
  | nil dirs => simpa using h2
  | mkdirStep dirs d evs hd _ ih =>
    exact SafeTrace.mkdirStep dirs d _ hd (ih (by simpa [dirsAfter] using h2))
  | constructStep dirs p evs hp _ ih =>
    exact SafeTrace.constructStep dirs p _ hp (ih (by simpa [dirsAfter] using h2))
  | loadStep dirs f evs _ ih =>
    exact SafeTrace.loadStep dirs f _ (ih (by simpa [dirsAfter] using h2))
  | plotStep dirs p nv infl evs _ ih =>
    exact SafeTrace.plotStep dirs p nv infl _ (ih (by simpa [dirsAfter] using h2))

theorem dirsAfter_of_inner {wd : FsPath} {evs : List Event}
    (h : ∀ ev ∈ evs, innerEvent wd ev) (dirs : List FsPath) :
    dirsAfter dirs evs = dirs := by
  induction evs generalizing dirs with
  | nil => rfl
  | cons ev evs ih =>
    have hev := h ev (by simp)
    have htail : ∀ x ∈ evs, innerEvent wd x := fun x hx => h x (by simp [hx])
    cases ev with
    | mkdirEv d => exact absurd hev (by simp [innerEvent])
    | constructEv p => simpa [dirsAfter] using ih htail dirs
    | loadEv f => simpa [dirsAfter] using ih htail dirs
    | plotEv p nv infl => simpa [dirsAfter] using ih htail dirs

theorem SafeTrace.of_inner {wd : FsPath} {evs : List Event} {dirs : List FsPath}
    (hwd : wd ∈ dirs) (h : ∀ ev ∈ evs, innerEvent wd ev) :
    SafeTrace dirs evs := by
  induction evs with
  | nil => exact SafeTrace.nil dirs
  | cons ev evs ih =>
    have hev := h ev (by simp)
    have htail : ∀ x ∈ evs, innerEvent wd x := fun x hx => h x (by simp [hx])
    cases ev with
    | mkdirEv d => exact absurd hev (by simp [innerEvent])
    | constructEv p =>
      have hp : p.write_dir = wd := hev
      exact SafeTrace.constructStep dirs p evs (hp ▸ hwd) (ih htail)
    | loadEv f => exact SafeTrace.loadStep dirs f evs (ih htail)
    | plotEv p nv infl => exact SafeTrace.plotStep dirs p nv infl evs (ih htail)

theorem plotLoop_inner (ext : External) (p : Problem) (infl : List Nat)
    (rs : List (String × IndexValues)) (wd : FsPath) :
    ∀ ev ∈ (plotLoop ext p infl rs).1, innerEvent wd ev := by
  induction rs with
  | nil => intro ev hev; simp [plotLoop] at hev
  | cons nv rest ih =>
    intro ev hev
    rw [plotLoop] at hev
    cases hp : ext.plotEff p nv infl with
    | some err =>
      rw [hp] at hev
      simp at hev
      simp [hev, innerEvent]
    | none =>
      rw [hp] at hev
      simp at hev
      rcases hev with rfl | hev
      · simp [innerEvent]
      · exact ih ev hev

theorem methodStep_inner (ext : External) (cfg : ModelConfig) (g : String) :
    ∀ ev ∈ (methodStep ext cfg g).1, innerEvent cfg.write_dir ev := by
  intro ev hev
  rw [methodStep] at hev
  cases hc : ext.constructEff (problemArgsFor cfg g) with
  | some err => rw [hc] at hev; simp at hev
  | none =>
    rw [hc] at hev
    dsimp only at hev
    cases hl : ext.loadEff (ext.gsa_dict (mkProblem (problemArgsFor cfg g)) "sa_results") with
    | some err =>
      rw [hl] at hev
      simp at hev
      rcases hev with rfl | rfl <;> simp [innerEvent, mkProblem, problemArgsFor]
    | none =>
      rw [hl] at hev
      simp at hev
      rcases hev with rfl | rfl | hev
      · simp [innerEvent, mkProblem, problemArgsFor]
      · simp [innerEvent]
      · exact plotLoop_inner ext _ _ _ _ ev hev

theorem methodsLoop_inner (ext : External) (cfg : ModelConfig) (gs : List String) :
    ∀ ev ∈ (methodsLoop ext cfg gs).1, innerEvent cfg.write_dir ev := by
  induction gs with
  | nil => intro ev hev; simp [methodsLoop] at hev
  | cons g gs ih =>
    intro ev hev
    rw [methodsLoop] at hev
    cases hstep : methodStep ext cfg g with
    | mk evs err =>
      have hin : ∀ x ∈ evs, innerEvent cfg.write_dir x := by
        intro x hx
        have := methodStep_inner ext cfg g x
        rw [hstep] at this
        exact this hx
      cases err with
      | some e => rw [hstep] at hev; exact hin ev hev
      | none =>
        rw [hstep] at hev
        simp at hev
        rcases hev with hev | hev
        · exact hin ev hev
        · exact ih ev hev

theorem modelStep_safe (ext : External) (methods : List String) (name : String)
    (st : DriverSt) (hwd : ∀ kv ∈ st.registry, kv.2.write_dir ≠ []) :
    SafeTrace st.dirs (modelStep ext methods name st).2.1 ∧
    (modelStep ext methods name st).1.dirs =
      dirsAfter st.dirs (modelStep ext methods name st).2.1 := by
  unfold modelStep
  cases hfind : lookupCfg st.registry name with
  | none => exact ⟨SafeTrace.nil st.dirs, rfl⟩
  | some cfg =>
    have hne : cfg.write_dir ≠ [] := hwd (name, cfg) (lookupCfg_mem hfind)
    have hinner := methodsLoop_inner ext cfg methods
    by_cases hd : cfg.write_dir ∈ st.dirs
    · simp only [hd, if_pos, List.nil_append]
      refine ⟨SafeTrace.of_inner hd hinner, ?_⟩
      simp [dirsAfter_of_inner hinner]
    · simp only [hd, if_neg, not_false_iff, List.cons_append, List.nil_append]
      constructor
      · refine SafeTrace.mkdirStep st.dirs cfg.write_dir _ hd ?_
        exact SafeTrace.of_inner (self_mem_mkdirParents st.dirs hne) hinner
      · simp [dirsAfter, dirsAfter_of_inner hinner]

theorem modelsLoop_safe (ext : External) (methods : List String) :
    ∀ (names : List String) (st : DriverSt),
      (∀ kv ∈ st.registry, kv.2.write_dir ≠ []) →
      SafeTrace st.dirs (modelsLoop ext methods names st).2.1 ∧
      (modelsLoop ext methods names st).1.dirs =
        dirsAfter st.dirs (modelsLoop ext methods names st).2.1 := by
  intro names
  induction names with
  | nil => intro st _; exact ⟨SafeTrace.nil st.dirs, rfl⟩
  | cons n ns ih =>
    intro st hwd
    rw [modelsLoop]
    cases hstep : modelStep ext methods n st with
    | mk st1 rest =>
      have hsafe := modelStep_safe ext methods n st hwd
      rw [hstep] at hsafe
      have hreg1 : st1.registry = st.registry := by
        have := modelStep_registry ext methods n st
        rw [hstep] at this
        exact this
      cases rest with
      | mk evs err =>
        cases err with
        | some e => exact hsafe
        | none =>
          have htail := ih st1 (by rw [hreg1]; exact hwd)
          simp only []
          constructor
          · refine SafeTrace.append hsafe.1 ?_
            rw [← hsafe.2]
            exact htail.1
          · rw [dirsAfter_append, ← hsafe.2]
            exact htail.2

/-! ## Exception propagation: the first raising call ends the run -/

theorem plotLoop_append_fail (ext : External) (p : Problem) (infl : List Nat)
    (rs1 : List (String × IndexValues)) (nv : String × IndexValues)
    (rs2 : List (String × IndexValues)) (err : Err)
    (h1 : (plotLoop ext p infl rs1).2 = none)
    (h2 : ext.plotEff p nv infl = some err) :
    plotLoop ext p infl (rs1 ++ nv :: rs2) =
      ((plotLoop ext p infl rs1).1 ++ [Event.plotEv p nv infl], some err) := by
  induction rs1 with
  | nil => simp [plotLoop, h2]
  | cons x xs ih =>
    rw [plotLoop] at h1
    cases hx : ext.plotEff p x infl with
    | some e0 => rw [hx] at h1; simp at h1
    | none =>
      rw [hx] at h1
      simp at h1
      rw [List.cons_append, plotLoop, hx]
      simp [plotLoop, hx, ih h1]

theorem methodsLoop_append_fail (ext : External) (cfg : ModelConfig)
    (gs1 : List String) (g : String) (gs2 : List String) (err : Err)
    (h1 : (methodsLoop ext cfg gs1).2 = none)
    (h2 : (methodStep ext cfg g).2 = some err) :
    methodsLoop ext cfg (gs1 ++ g :: gs2) =
      ((methodsLoop ext cfg gs1).1 ++ (methodStep ext cfg g).1, some err) := by
  induction gs1 with
  | nil =>
    rw [List.nil_append, methodsLoop]
    cases hstep : methodStep ext cfg g with
    | mk evs e =>
      rw [hstep] at h2
      simp at h2
      subst h2
      simp [methodsLoop, hstep]
  | cons x xs ih =>
    rw [methodsLoop] at h1
    cases hx : methodStep ext cfg x with
    | mk evs e =>
      rw [hx] at h1
      cases e with
      | some e0 => simp at h1
      | none =>
        simp at h1
        rw [List.cons_append, methodsLoop, hx]
        simp [methodsLoop, hx, ih h1, List.append_assoc]

theorem modelsLoop_append_fail (ext : External) (methods : List String)
    (ns1 : List String) (m : String) (ns2 : List String) (err : Err) :
    ∀ st : DriverSt,
      (modelsLoop ext methods ns1 st).2.2 = none →
      (modelStep ext methods m (modelsLoop ext methods ns1 st).1).2.2 = some err →
      modelsLoop ext methods (ns1 ++ m :: ns2) st =
        ((modelStep ext methods m (modelsLoop ext methods ns1 st).1).1,
         (modelsLoop ext methods ns1 st).2.1 ++
           (modelStep ext methods m (modelsLoop ext methods ns1 st).1).2.1,
         some err) := by
  induction ns1 with
  | nil =>
    intro st h1 h2
    rw [List.nil_append, modelsLoop]
    cases hstep : modelStep ext methods m st with
    | mk st1 rest =>
      cases rest with
      | mk evs e =>
        have : (modelsLoop ext methods [] st) = (st, [], none) := rfl
        rw [this] at h2
        simp only [] at h2
        rw [hstep] at h2
        simp at h2
        subst h2
        simp [this, modelsLoop, hstep]
  | cons x xs ih =>
    intro st h1 h2
    rw [modelsLoop] at h1 h2
    cases hx : modelStep ext methods x st with
    | mk st1 rest =>
      cases rest with
      | mk evs e =>
        rw [hx] at h1 h2
        cases e with
        | some e0 => simp at h1
        | none =>
          simp only [] at h1 h2
          rw [List.cons_append, modelsLoop, hx]
          simp [modelsLoop, hx, ih st1 h1 h2, List.append_assoc]

end RunGsa

namespace DaskGsa

/-! ## Runs of the dask-capable driver -/

theorem methodsLoop_evals (use_dask : Bool) (cfg : ModelConfig) (gs : List String) :
    (methodsLoop use_dask cfg gs).1 = gs.map (evalFor use_dask cfg) := by
  induction gs with
  | nil => rfl
  | cons g gs ih =>
    cases use_dask <;> simp [methodsLoop, methodStep, evalFor, ih]

theorem methodsLoop_constructions (use_dask : Bool) (cfg : ModelConfig)
    (gs : List String) :
    (methodsLoop use_dask cfg gs).2 =
      if use_dask then [] else gs.map (problemArgsFor cfg) := by
  induction gs with
  | nil => cases use_dask <;> rfl
  | cons g gs ih =>
    cases use_dask <;> simp_all [methodsLoop, methodStep]

theorem modelStep_registry_dask (use_dask : Bool) (methods : List String)
    (name : String) (st : DriverSt) :
    (modelStep use_dask methods name st).1.registry = st.registry := by
  unfold modelStep
  cases hfind : lookupCfg st.registry name with
  | none => rfl
  | some cfg => by_cases hd : cfg.write_dir ∈ st.dirs <;> simp [hd]

theorem modelsLoop_registry_dask (use_dask : Bool) (methods : List String) :
    ∀ (names : List String) (st : DriverSt),
      (modelsLoop use_dask methods names st).1.registry = st.registry := by
  intro names
  induction names with
  | nil => intro st; rfl
  | cons n ns ih =>
    intro st
    rw [modelsLoop]
    cases hstep : modelStep use_dask methods n st with
    | mk st1 rest =>
      have hr : st1.registry = st.registry := by
        have := modelStep_registry_dask use_dask methods n st
        rw [hstep] at this
        exact this
      cases rest with
      | mk evals rest2 =>
        cases rest2 with
        | mk cons2 err =>
          cases err with
          | none => simpa [hr] using ih st1
          | some e => simpa using hr

theorem modelsLoop_ok (use_dask : Bool) (methods : List String) :
    ∀ (names : List String) (st : DriverSt),
      Registered st.registry names →
      (modelsLoop use_dask methods names st).2.1 =
        (pairsOf names methods).map
          (fun mg => evalFor use_dask (cfgOf st.registry mg.1) mg.2) ∧
      (modelsLoop use_dask methods names st).2.2.1 =
        (if use_dask then [] else
          (pairsOf names methods).map
            (fun mg => problemArgsFor (cfgOf st.registry mg.1) mg.2)) ∧
      (modelsLoop use_dask methods names st).2.2.2 = none := by
  intro names
  induction names with
  | nil =>
    intro st _
    refine ⟨rfl, ?_, rfl⟩
    cases use_dask <;> rfl
  | cons n ns ih =>
    intro st hreg
    obtain ⟨cfg, hcfg⟩ := Option.isSome_iff_exists.mp (hreg n (by simp))
    rw [modelsLoop]
    rw [show modelStep use_dask methods n st =
        ((if cfg.write_dir ∈ st.dirs then st
           else { st with dirs := mkdirParents st.dirs cfg.write_dir }),
         (methodsLoop use_dask cfg methods).1,
         (methodsLoop use_dask cfg methods).2, none) by
      simp [modelStep, hcfg]]
    set st1 : DriverSt :=
      if cfg.write_dir ∈ st.dirs then st
        else { st with dirs := mkdirParents st.dirs cfg.write_dir } with hst1
    have hreg1 : st1.registry = st.registry := by
      rw [hst1]; by_cases hd : cfg.write_dir ∈ st.dirs <;> simp [hd]
    have htail := ih st1 (by
      rw [hreg1]
      intro x hx
      exact hreg x (List.mem_cons_of_mem n hx))
    simp only []
    rw [pairsOf_cons]
    refine ⟨?_, ?_, ?_⟩
    · rw [List.map_append, htail.1, hreg1, methodsLoop_evals]
      simp [cfgOf_eq hcfg, Function.comp]
    · rw [htail.2.1, hreg1, methodsLoop_constructions]
      cases use_dask with
      | false =>
        simp only [if_neg Bool.false_ne_true, List.map_append]
        simp [cfgOf_eq hcfg, Function.comp]
      | true => simp
    · exact htail.2.2

theorem evalConstructions_evalFor (use_dask : Bool) (cfg : ModelConfig)
    (g : String) :
    evalConstructions (evalFor use_dask cfg g) =
      if use_dask then [problemArgsFor cfg g] else [] := by
  cases use_dask <;> rfl

theorem evalForce_evalFor (use_dask : Bool) (cfg : ModelConfig) (g : String) :
    evalForce (evalFor use_dask cfg g) = mkProblem (problemArgsFor cfg g) := by
  cases use_dask <;> rfl

theorem flatMapSingle {α β : Type} (l : List α) (f : α → β) :
    l.flatMap (fun x => [f x]) = l.map f := by
  induction l <;> simp_all

theorem flatMapConstNil {α β : Type} (l : List α) :
    l.flatMap (fun _ => ([] : List β)) = [] := by
  induction l <;> simp_all

theorem runConstructions_eq (use_dask : Bool) (e : ExternalModels)
    (names methods : List String) (dirs0 : List FsPath)
    (h : Registered (models_dict e) names) :
    runConstructions use_dask e names methods dirs0 =
      (pairsOf names methods).map
        (fun mg => problemArgsFor (cfgOf (models_dict e) mg.1) mg.2) := by
  have hok := modelsLoop_ok use_dask methods names ⟨dirs0, models_dict e⟩ h
  unfold runConstructions runDriver
  dsimp only
  rw [hok.2.1, hok.1]
  unfold daskCompute
  dsimp only
  cases use_dask with
  | true =>
    simp only [if_pos, List.nil_append, List.flatMap_map, Function.comp,
      evalConstructions_evalFor, if_true]
    exact flatMapSingle _ _
  | false =>
    simp only [Bool.false_eq_true, if_false, List.flatMap_map, Function.comp,
      evalConstructions_evalFor]
    rw [flatMapConstNil, List.append_nil]

theorem runProblems_eq (use_dask : Bool) (e : ExternalModels)
    (names methods : List String) (dirs0 : List FsPath)
    (h : Registered (models_dict e) names) :
    runProblems use_dask e names methods dirs0 =
      (pairsOf names methods).map
        (fun mg => mkProblem (problemArgsFor (cfgOf (models_dict e) mg.1) mg.2)) := by
  have hok := modelsLoop_ok use_dask methods names ⟨dirs0, models_dict e⟩ h
  unfold runProblems runDriver daskCompute
  dsimp only
  rw [hok.1, List.map_map]
  simp [Function.comp_def, evalForce_evalFor]

theorem runDriver_err (use_dask : Bool) (e : ExternalModels)
    (names methods : List String) (dirs0 : List FsPath)
    (h : Registered (models_dict e) names) :
    (runDriver use_dask e names methods dirs0).2.2.2 = none :=
  (modelsLoop_ok use_dask methods names ⟨dirs0, models_dict e⟩ h).2.2

theorem modelStep_dirs_mono (use_dask : Bool) (methods : List String)
    (name : String) (st : DriverSt) :
    st.dirs ⊆ (modelStep use_dask methods name st).1.dirs := by
  unfold modelStep
  cases hfind : lookupCfg st.registry name with
  | none => exact fun x hx => hx
  | some cfg =>
    by_cases hd : cfg.write_dir ∈ st.dirs
    · simp only [hd, if_pos]
      exact fun x hx => hx
    · simp only [hd, if_neg, not_false_iff]
      exact fun x hx => mem_mkdirParents_of_mem hx cfg.write_dir

theorem modelsLoop_dirs_mono (use_dask : Bool) (methods : List String) :
    ∀ (names : List String) (st : DriverSt),
      st.dirs ⊆ (modelsLoop use_dask methods names st).1.dirs := by
  intro names
  induction names with
  | nil => intro st x hx; exact hx
  | cons n ns ih =>
    intro st
    rw [modelsLoop]
    cases hstep : modelStep use_dask methods n st with
    | mk st1 rest =>
      have hmono : st.dirs ⊆ st1.dirs := by
        have := modelStep_dirs_mono use_dask methods n st
        rw [hstep] at this
        exact this
      cases rest with
      | mk evals rest2 =>
        cases rest2 with
        | mk cons2 err =>
          cases err with
          | none => exact fun x hx => ih st1 (hmono hx)
          | some e => exact hmono

theorem modelsLoop_write_dir_mem (use_dask : Bool) (methods : List String) :
    ∀ (names : List String) (st : DriverSt),
      (∀ kv ∈ st.registry, kv.2.write_dir ≠ []) →
      Registered st.registry names →
      ∀ n ∈ names,
        (cfgOf st.registry n).write_dir ∈
          (modelsLoop use_dask methods names st).1.dirs := by
  intro names
  induction names with
  | nil => intro st _ _ n hn; simp at hn
  | cons x ns ih =>
    intro st hwd hreg n hn
    obtain ⟨cfg, hcfg⟩ := Option.isSome_iff_exists.mp (hreg x (by simp))
    rw [modelsLoop]
    rw [show modelStep use_dask methods x st =
        ((if cfg.write_dir ∈ st.dirs then st
           else { st with dirs := mkdirParents st.dirs cfg.write_dir }),
         (methodsLoop use_dask cfg methods).1,
         (methodsLoop use_dask cfg methods).2, none) by
      simp [modelStep, hcfg]]
    set st1 : DriverSt :=
      if cfg.write_dir ∈ st.dirs then st
        else { st with dirs := mkdirParents st.dirs cfg.write_dir } with hst1
    have hreg1 : st1.registry = st.registry := by
      rw [hst1]; by_cases hd : cfg.write_dir ∈ st.dirs <;> simp [hd]
    have hne : cfg.write_dir ≠ [] := hwd (x, cfg) (lookupCfg_mem hcfg)
    have hwdmem : cfg.write_dir ∈ st1.dirs := by
      rw [hst1]
      by_cases hd : cfg.write_dir ∈ st.dirs
      · simp [hd]
      · simpa [hd] using self_mem_mkdirParents st.dirs hne
    simp only []
    rcases List.mem_cons.mp hn with rfl | hns
    · rw [cfgOf_eq hcfg]
      exact modelsLoop_dirs_mono use_dask methods ns st1 hwdmem
    · have := ih st1 (by rw [hreg1]; exact hwd)
        (by rw [hreg1]; intro y hy; exact hreg y (List.mem_cons_of_mem x hy)) n hns
      rw [hreg1] at this
      exact this

/-- Every constructor call of a registered run writes inside a directory
    that exists when the run ends. -/
theorem runConstructions_write_dir (use_dask : Bool) (e : ExternalModels)
    (names methods : List String) (dirs0 : List FsPath)
    (hwd : ∀ kv ∈ models_dict e, kv.2.write_dir ≠ [])
    (h : Registered (models_dict e) names) :
    ∀ a ∈ runConstructions use_dask e names methods dirs0,
      a.write_dir ∈ (runDriver use_dask e names methods dirs0).1.dirs := by
  intro a ha
  rw [runConstructions_eq use_dask e names methods dirs0 h] at ha
  obtain ⟨mg, hmg, rfl⟩ := List.mem_map.mp ha
  have hm : mg.1 ∈ names := by
    obtain ⟨m, g⟩ := mg
    exact (mem_pairsOf.mp hmg).1
  have := modelsLoop_write_dir_mem use_dask methods names
    ⟨dirs0, models_dict e⟩ hwd h mg.1 hm
  exact this

end DaskGsa

/-! ## The claims -/

/-- C1: for every selected model name and every selected GSA method, the
    experiment driver constructs exactly one Problem descriptor for that
    (model, method) pair, in model-major then method-minor order; a full
    run produces `|models| * |methods|` Problem descriptors and no pair
    is constructed twice.  Stated for the local driver (its constructed
    Problems are exactly one per pair, in pair order) and for the
    dask-capable driver (its constructor calls likewise), together with
    the counting and uniqueness facts about the visited pair list. -/
theorem claim_C1 (ext : RunGsa.External) (eA : RunGsa.ExternalModels)
    (eB : DaskGsa.ExternalModels) (use_dask : Bool)
    (names methods : List String) (dirs0 dirs1 : List FsPath)
    (hF : RunGsa.NoFailures ext)
    (hA : Registered (RunGsa.models_dict eA) names)
    (hB : Registered (DaskGsa.models_dict eB) names) :
    RunGsa.constructedProblems
        (RunGsa.runDriver ext eA names methods dirs0).2.1 =
      (pairsOf names methods).map
        (fun mg => mkProblem
          (RunGsa.problemArgsFor (cfgOf (RunGsa.models_dict eA) mg.1) mg.2)) ∧
    DaskGsa.runConstructions use_dask eB names methods dirs1 =
      (pairsOf names methods).map
        (fun mg => DaskGsa.problemArgsFor (cfgOf (DaskGsa.models_dict eB) mg.1) mg.2) ∧
    (pairsOf names methods).length = names.length * methods.length ∧
    (names.Nodup → methods.Nodup →
      (pairsOf names methods).Nodup ∧
      ∀ m g, m ∈ names → g ∈ methods →
        ((pairsOf names methods).filter (fun mg => mg = (m, g))).length = 1) := by
  refine ⟨?_, DaskGsa.runConstructions_eq use_dask eB names methods dirs1 hB,
    pairsOf_length names methods, fun h1 h2 =>
      ⟨pairsOf_nodup h1 h2,
       fun m g hm hg => pairsOf_filter_eq_one h1 h2 hm hg⟩⟩
  exact RunGsa.modelsLoop_constructed ext methods hF names
    ⟨dirs0, RunGsa.models_dict eA⟩ hA

/-- Witness for C1: both selections of the `run_gsa` notebook, a
    failure-free external behaviour, concrete external model data. -/
theorem claim_C1_witness :
    RunGsa.NoFailures extOk ∧
    Registered (RunGsa.models_dict eAW) RunGsa.model_names ∧
    Registered (DaskGsa.models_dict eBW) RunGsa.model_names ∧
    (RunGsa.constructedProblems
        (RunGsa.runDriver extOk eAW RunGsa.model_names RunGsa.gsa_methods []).2.1 =
      (pairsOf RunGsa.model_names RunGsa.gsa_methods).map
        (fun mg => mkProblem
          (RunGsa.problemArgsFor (cfgOf (RunGsa.models_dict eAW) mg.1) mg.2)) ∧
     DaskGsa.runConstructions true eBW RunGsa.model_names RunGsa.gsa_methods [] =
      (pairsOf RunGsa.model_names RunGsa.gsa_methods).map
        (fun mg => DaskGsa.problemArgsFor (cfgOf (DaskGsa.models_dict eBW) mg.1) mg.2) ∧
     (pairsOf RunGsa.model_names RunGsa.gsa_methods).length =
       RunGsa.model_names.length * RunGsa.gsa_methods.length ∧
     (RunGsa.model_names.Nodup → RunGsa.gsa_methods.Nodup →
       (pairsOf RunGsa.model_names RunGsa.gsa_methods).Nodup ∧
       ∀ m g, m ∈ RunGsa.model_names → g ∈ RunGsa.gsa_methods →
         ((pairsOf RunGsa.model_names RunGsa.gsa_methods).filter
             (fun mg => mg = (m, g))).length = 1)) := by
  have hF : RunGsa.NoFailures extOk :=
    ⟨fun _ => rfl, fun _ => rfl, fun _ _ _ => rfl⟩
  have hA : Registered (RunGsa.models_dict eAW) RunGsa.model_names := by
    intro n hn
    fin_cases hn <;> decide
  have hB : Registered (DaskGsa.models_dict eBW) RunGsa.model_names := by
    intro n hn
    fin_cases hn <;> decide
  exact ⟨hF, hA, hB,
    claim_C1 extOk eAW eBW true RunGsa.model_names RunGsa.gsa_methods [] [] hF hA hB⟩

/-- C2: every Problem descriptor the drivers construct carries exactly
    the seven fields sampler, model, interpreter, write_dir, iterations,
    seed, X, where for the pair (m, g) the model and write_dir come from
    the registry entry of m and the interpreter is g. -/
theorem claim_C2 (ext : RunGsa.External) (eA : RunGsa.ExternalModels)
    (eB : DaskGsa.ExternalModels) (use_dask : Bool)
    (names methods : List String) (dirs0 dirs1 : List FsPath)
    (hF : RunGsa.NoFailures ext)
    (hA : Registered (RunGsa.models_dict eA) names)
    (hB : Registered (DaskGsa.models_dict eB) names) :
    RunGsa.constructedProblems
        (RunGsa.runDriver ext eA names methods dirs0).2.1 =
      (pairsOf names methods).map (fun mg =>
        { sampler := "random"
          model := (cfgOf (RunGsa.models_dict eA) mg.1).model
          interpreter := mg.2
          write_dir := (cfgOf (RunGsa.models_dict eA) mg.1).write_dir
          iterations := some (cfgOf (RunGsa.models_dict eA) mg.1).iterations
          seed := 34534
          X := none }) ∧
    DaskGsa.runConstructions use_dask eB names methods dirs1 =
      (pairsOf names methods).map (fun mg =>
        { sampler := "random"
          model := (cfgOf (DaskGsa.models_dict eB) mg.1).model
          interpreter := mg.2
          write_dir := (cfgOf (DaskGsa.models_dict eB) mg.1).write_dir
          iterations := DaskGsa.iterationsFor (cfgOf (DaskGsa.models_dict eB) mg.1) mg.2
          seed := 34534
          X := none }) := by
  constructor
  · exact RunGsa.modelsLoop_constructed ext methods hF names
      ⟨dirs0, RunGsa.models_dict eA⟩ hA
  · exact DaskGsa.runConstructions_eq use_dask eB names methods dirs1 hB

/-- Witness for C2 at the same concrete inputs as C1. -/
theorem claim_C2_witness :
    RunGsa.NoFailures extOk ∧
    Registered (RunGsa.models_dict eAW) RunGsa.model_names ∧
    Registered (DaskGsa.models_dict eBW) RunGsa.model_names ∧
    (RunGsa.constructedProblems
        (RunGsa.runDriver extOk eAW RunGsa.model_names RunGsa.gsa_methods []).2.1 =
      (pairsOf RunGsa.model_names RunGsa.gsa_methods).map (fun mg =>
        { sampler := "random"
          model := (cfgOf (RunGsa.models_dict eAW) mg.1).model
          interpreter := mg.2
          write_dir := (cfgOf (RunGsa.models_dict eAW) mg.1).write_dir
          iterations := some (cfgOf (RunGsa.models_dict eAW) mg.1).iterations
          seed := 34534
          X := none }) ∧
     DaskGsa.runConstructions false eBW RunGsa.model_names RunGsa.gsa_methods [] =
      (pairsOf RunGsa.model_names RunGsa.gsa_methods).map (fun mg =>
        { sampler := "random"
          model := (cfgOf (DaskGsa.models_dict eBW) mg.1).model
          interpreter := mg.2
          write_dir := (cfgOf (DaskGsa.models_dict eBW) mg.1).write_dir
          iterations := DaskGsa.iterationsFor (cfgOf (DaskGsa.models_dict eBW) mg.1) mg.2
          seed := 34534
          X := none })) := by
  have hF : RunGsa.NoFailures extOk :=
    ⟨fun _ => rfl, fun _ => rfl, fun _ _ _ => rfl⟩
  have hA : Registered (RunGsa.models_dict eAW) RunGsa.model_names := by
    intro n hn
    fin_cases hn <;> decide
  have hB : Registered (DaskGsa.models_dict eBW) RunGsa.model_names := by
    intro n hn
    fin_cases hn <;> decide
  exact ⟨hF, hA, hB,
    claim_C2 extOk eAW eBW false RunGsa.model_names RunGsa.gsa_methods [] [] hF hA hB⟩

/-- C3: the distributed and the local execution paths are equivalent:
    for the same selections, `use_dask = true` (Problem constructions
    deferred, collected by one `dask.compute` over the whole list)
    performs the same constructor calls with the same arguments, in the
    same order (hence the same multiset), yields the same Problems, and
    neither path raises. -/
theorem claim_C3 (eB : DaskGsa.ExternalModels) (names methods : List String)
    (dirs0 : List FsPath) (hB : Registered (DaskGsa.models_dict eB) names) :
    DaskGsa.runConstructions true eB names methods dirs0 =
      DaskGsa.runConstructions false eB names methods dirs0 ∧
    DaskGsa.runProblems true eB names methods dirs0 =
      DaskGsa.runProblems false eB names methods dirs0 ∧
    (DaskGsa.runDriver true eB names methods dirs0).2.2.2 = none ∧
    (DaskGsa.runDriver false eB names methods dirs0).2.2.2 = none := by
  refine ⟨?_, ?_, DaskGsa.runDriver_err true eB names methods dirs0 hB,
    DaskGsa.runDriver_err false eB names methods dirs0 hB⟩
  · rw [DaskGsa.runConstructions_eq true eB names methods dirs0 hB,
      DaskGsa.runConstructions_eq false eB names methods dirs0 hB]
  · rw [DaskGsa.runProblems_eq true eB names methods dirs0 hB,
      DaskGsa.runProblems_eq false eB names methods dirs0 hB]

/-- Witness for C3 at the own selections of the dask notebook. -/
theorem claim_C3_witness :
    Registered (DaskGsa.models_dict eBW) DaskGsa.model_names ∧
    (DaskGsa.runConstructions true eBW DaskGsa.model_names DaskGsa.gsa_methods [] =
      DaskGsa.runConstructions false eBW DaskGsa.model_names DaskGsa.gsa_methods [] ∧
     DaskGsa.runProblems true eBW DaskGsa.model_names DaskGsa.gsa_methods [] =
      DaskGsa.runProblems false eBW DaskGsa.model_names DaskGsa.gsa_methods [] ∧
     (DaskGsa.runDriver true eBW DaskGsa.model_names DaskGsa.gsa_methods []).2.2.2 = none ∧
     (DaskGsa.runDriver false eBW DaskGsa.model_names DaskGsa.gsa_methods []).2.2.2 = none) := by
  have hB : Registered (DaskGsa.models_dict eBW) DaskGsa.model_names := by
    intro n hn
    fin_cases hn
    decide
  exact ⟨hB, claim_C3 eBW DaskGsa.model_names DaskGsa.gsa_methods [] hB⟩

/-- C4: for every pair the local driver processes, after constructing
    the Problem the result consumer loads the result set from the file
    `problem.gsa_dict["sa_results"]` and issues exactly one plot call per
    entry of the loaded mapping, with the singleton mapping and the
    `influential_params` of the model; the whole inner loop is the
    concatenation of such per-pair segments, each a function of its own
    pair alone, so no loaded result set is retained beyond the iteration
    of its pair. -/
theorem claim_C4 (ext : RunGsa.External) (cfg : ModelConfig)
    (h : RunGsa.NoFailures ext) :
    (∀ g : String,
      RunGsa.methodStep ext cfg g =
        (RunGsa.Event.constructEv (mkProblem (RunGsa.problemArgsFor cfg g)) ::
         RunGsa.Event.loadEv
           (ext.gsa_dict (mkProblem (RunGsa.problemArgsFor cfg g)) "sa_results") ::
         (ext.loadResult
            (ext.gsa_dict (mkProblem (RunGsa.problemArgsFor cfg g)) "sa_results")).map
           (fun nv =>
             RunGsa.Event.plotEv (mkProblem (RunGsa.problemArgsFor cfg g)) nv
               cfg.model.influential_params),
         none)) ∧
    (∀ gs : List String,
      RunGsa.methodsLoop ext cfg gs =
        (gs.flatMap (RunGsa.pairSegment ext cfg), none)) := by
  constructor
  · intro g
    exact RunGsa.methodStep_ok ext cfg g h
  · intro gs
    exact RunGsa.methodsLoop_ok ext cfg h gs

/-- Witness for C4: the `lca` registry entry and a failure-free external
    behaviour. -/
theorem claim_C4_witness :
    RunGsa.NoFailures extOk ∧
    ((∀ g : String,
      RunGsa.methodStep extOk lcaCfgW g =
        (RunGsa.Event.constructEv (mkProblem (RunGsa.problemArgsFor lcaCfgW g)) ::
         RunGsa.Event.loadEv
           (extOk.gsa_dict (mkProblem (RunGsa.problemArgsFor lcaCfgW g)) "sa_results") ::
         (extOk.loadResult
            (extOk.gsa_dict (mkProblem (RunGsa.problemArgsFor lcaCfgW g)) "sa_results")).map
           (fun nv =>
             RunGsa.Event.plotEv (mkProblem (RunGsa.problemArgsFor lcaCfgW g)) nv
               lcaCfgW.model.influential_params),
         none)) ∧
     (∀ gs : List String,
      RunGsa.methodsLoop extOk lcaCfgW gs =
        (gs.flatMap (RunGsa.pairSegment extOk lcaCfgW), none))) := by
  have hF : RunGsa.NoFailures extOk :=
    ⟨fun _ => rfl, fun _ => rfl, fun _ _ _ => rfl⟩
  exact ⟨hF, claim_C4 extOk lcaCfgW hF⟩

/-- C5: before any Problem for a model is constructed, the driver
    ensures that the output directory of the model exists: replayed from
    any initial file system, the trace of the run creates a directory (with its
    ancestors) only while it is absent, every construction happens while
    its output directory exists, and the final directory state is the
    replay of the trace.  For the dask-capable driver, every constructor
    call writes inside a directory of the finished run. -/
theorem claim_C5 (ext : RunGsa.External) (eA : RunGsa.ExternalModels)
    (eB : DaskGsa.ExternalModels) (use_dask : Bool)
    (names methods : List String) (dirs0 dirs1 : List FsPath)
    (hB : Registered (DaskGsa.models_dict eB) names) :
    RunGsa.SafeTrace dirs0 (RunGsa.runDriver ext eA names methods dirs0).2.1 ∧
    (RunGsa.runDriver ext eA names methods dirs0).1.dirs =
      RunGsa.dirsAfter dirs0 (RunGsa.runDriver ext eA names methods dirs0).2.1 ∧
    (∀ a ∈ DaskGsa.runConstructions use_dask eB names methods dirs1,
      a.write_dir ∈ (DaskGsa.runDriver use_dask eB names methods dirs1).1.dirs) := by
  have hwdA : ∀ kv ∈ RunGsa.models_dict eA, kv.2.write_dir ≠ [] := by
    intro kv hkv
    simp only [RunGsa.models_dict, List.mem_cons, List.not_mem_nil, or_false] at hkv
    rcases hkv with rfl | rfl | rfl | rfl <;>
      simp [RunGsa.write_dir_lca, RunGsa.write_dir_moon, RunGsa.write_dir_morris,
        RunGsa.write_dir_SL, pathJoin, RunGsa.path_base]
  have hwdB : ∀ kv ∈ DaskGsa.models_dict eB, kv.2.write_dir ≠ [] := by
    intro kv hkv
    simp only [DaskGsa.models_dict, List.mem_cons, List.not_mem_nil, or_false] at hkv
    rcases hkv with rfl | rfl | rfl | rfl <;>
      simp [DaskGsa.write_dir_lca, DaskGsa.write_dir_moon, DaskGsa.write_dir_morris,
        DaskGsa.write_dir_SL, pathJoin, DaskGsa.path_base]
  have hsafe := RunGsa.modelsLoop_safe ext methods names
    ⟨dirs0, RunGsa.models_dict eA⟩ hwdA
  exact ⟨hsafe.1, hsafe.2,
    DaskGsa.runConstructions_write_dir use_dask eB names methods dirs1 hwdB hB⟩

/-- Witness for C5 at concrete inputs. -/
theorem claim_C5_witness :
    Registered (DaskGsa.models_dict eBW) DaskGsa.model_names ∧
    (RunGsa.SafeTrace []
        (RunGsa.runDriver extOk eAW DaskGsa.model_names DaskGsa.gsa_methods []).2.1 ∧
     (RunGsa.runDriver extOk eAW DaskGsa.model_names DaskGsa.gsa_methods []).1.dirs =
       RunGsa.dirsAfter []
         (RunGsa.runDriver extOk eAW DaskGsa.model_names DaskGsa.gsa_methods []).2.1 ∧
     (∀ a ∈ DaskGsa.runConstructions true eBW DaskGsa.model_names DaskGsa.gsa_methods [],
       a.write_dir ∈
         (DaskGsa.runDriver true eBW DaskGsa.model_names DaskGsa.gsa_methods []).1.dirs)) := by
  have hB : Registered (DaskGsa.models_dict eBW) DaskGsa.model_names := by
    intro n hn
    fin_cases hn
    decide
  exact ⟨hB, claim_C5 extOk eAW eBW true DaskGsa.model_names DaskGsa.gsa_methods [] [] hB⟩

/-- C6: the driver catches nothing: the exception suppression around
    plotting is commented out, so the first exception an external call
    raises becomes the result of the run, and the remaining methods of the
    current model and all remaining models contribute nothing — stated
    as the run over `ns1 ++ m :: ns2` (resp. `gs1 ++ g :: gs2`) ending
    at the failing step with exactly the events produced so far. -/
theorem claim_C6 (ext : RunGsa.External) (methods : List String) (st : DriverSt)
    (cfg : ModelConfig) (ns1 : List String) (m : String) (ns2 : List String)
    (gs1 : List String) (g : String) (gs2 : List String) (errM errG : Err)
    (h1 : (RunGsa.modelsLoop ext methods ns1 st).2.2 = none)
    (h2 : (RunGsa.modelStep ext methods m
            (RunGsa.modelsLoop ext methods ns1 st).1).2.2 = some errM)
    (h3 : (RunGsa.methodsLoop ext cfg gs1).2 = none)
    (h4 : (RunGsa.methodStep ext cfg g).2 = some errG) :
    RunGsa.modelsLoop ext methods (ns1 ++ m :: ns2) st =
      ((RunGsa.modelStep ext methods m
          (RunGsa.modelsLoop ext methods ns1 st).1).1,
       (RunGsa.modelsLoop ext methods ns1 st).2.1 ++
         (RunGsa.modelStep ext methods m
           (RunGsa.modelsLoop ext methods ns1 st).1).2.1,
       some errM) ∧
    RunGsa.methodsLoop ext cfg (gs1 ++ g :: gs2) =
      ((RunGsa.methodsLoop ext cfg gs1).1 ++ (RunGsa.methodStep ext cfg g).1,
       some errG) :=
  ⟨RunGsa.modelsLoop_append_fail ext methods ns1 m ns2 errM st h1 h2,
   RunGsa.methodsLoop_append_fail ext cfg gs1 g gs2 errG h3 h4⟩

/-- Witness for C6: plotting raises `ValueError` on the very first pair;
    the run aborts there and the second model is never processed. -/
theorem claim_C6_witness :
    (RunGsa.modelsLoop extPlotFail RunGsa.gsa_methods []
        ⟨[], RunGsa.models_dict eAW⟩).2.2 = none ∧
    (RunGsa.modelStep extPlotFail RunGsa.gsa_methods "morris"
        (RunGsa.modelsLoop extPlotFail RunGsa.gsa_methods []
          ⟨[], RunGsa.models_dict eAW⟩).1).2.2 = some "ValueError" ∧
    (RunGsa.methodsLoop extPlotFail lcaCfgW []).2 = none ∧
    (RunGsa.methodStep extPlotFail lcaCfgW "correlation_coefficients").2 =
      some "ValueError" ∧
    (RunGsa.modelsLoop extPlotFail RunGsa.gsa_methods
        ([] ++ "morris" :: ["sobol_levitan"]) ⟨[], RunGsa.models_dict eAW⟩ =
      ((RunGsa.modelStep extPlotFail RunGsa.gsa_methods "morris"
          (RunGsa.modelsLoop extPlotFail RunGsa.gsa_methods []
            ⟨[], RunGsa.models_dict eAW⟩).1).1,
       (RunGsa.modelsLoop extPlotFail RunGsa.gsa_methods []
          ⟨[], RunGsa.models_dict eAW⟩).2.1 ++
         (RunGsa.modelStep extPlotFail RunGsa.gsa_methods "morris"
           (RunGsa.modelsLoop extPlotFail RunGsa.gsa_methods []
             ⟨[], RunGsa.models_dict eAW⟩).1).2.1,
       some "ValueError") ∧
     RunGsa.methodsLoop extPlotFail lcaCfgW
        ([] ++ "correlation_coefficients" ::
          ["sobol_indices", "eFAST_indices", "xgboost"]) =
      ((RunGsa.methodsLoop extPlotFail lcaCfgW []).1 ++
         (RunGsa.methodStep extPlotFail lcaCfgW "correlation_coefficients").1,
       some "ValueError")) := by
  have h1 : (RunGsa.modelsLoop extPlotFail RunGsa.gsa_methods []
      ⟨[], RunGsa.models_dict eAW⟩).2.2 = none := rfl
  have h2 : (RunGsa.modelStep extPlotFail RunGsa.gsa_methods "morris"
      (RunGsa.modelsLoop extPlotFail RunGsa.gsa_methods []
        ⟨[], RunGsa.models_dict eAW⟩).1).2.2 = some "ValueError" := by decide
  have h3 : (RunGsa.methodsLoop extPlotFail lcaCfgW []).2 = none := rfl
  have h4 : (RunGsa.methodStep extPlotFail lcaCfgW
      "correlation_coefficients").2 = some "ValueError" := by decide
  exact ⟨h1, h2, h3, h4,
    claim_C6 extPlotFail RunGsa.gsa_methods ⟨[], RunGsa.models_dict eAW⟩ lcaCfgW
      [] "morris" ["sobol_levitan"]
      [] "correlation_coefficients" ["sobol_indices", "eFAST_indices", "xgboost"]
      "ValueError" "ValueError" h1 h2 h3 h4⟩

/-- C7: the model registry is read-only after construction: neither
    driver loop changes it — from any state the loops return the
    registry they were given, and a full run of either notebook ends
    with the registry exactly as built. -/
theorem claim_C7 (ext : RunGsa.External) (use_dask : Bool)
    (methods names : List String) (st : DriverSt)
    (eA : RunGsa.ExternalModels) (eB : DaskGsa.ExternalModels)
    (dirs0 dirs1 : List FsPath) :
    (RunGsa.modelsLoop ext methods names st).1.registry = st.registry ∧
    (DaskGsa.modelsLoop use_dask methods names st).1.registry = st.registry ∧
    (RunGsa.runDriver ext eA names methods dirs0).1.registry =
      RunGsa.models_dict eA ∧
    (DaskGsa.runDriver use_dask eB names methods dirs1).1.registry =
      DaskGsa.models_dict eB :=
  ⟨RunGsa.modelsLoop_registry ext methods names st,
   DaskGsa.modelsLoop_registry_dask use_dask methods names st,
   RunGsa.modelsLoop_registry ext methods names ⟨dirs0, RunGsa.models_dict eA⟩,
   DaskGsa.modelsLoop_registry_dask use_dask methods names
     ⟨dirs1, DaskGsa.models_dict eB⟩⟩

/-- C8: in the dask-capable driver the iteration count passed to a
    Problem is not always the registry value: `eFAST_indices` gets 130,
    `correlation_coefficients` gets `None`, every other method gets the
    count stored in the registry entry — and the `iterations` argument of
    each constructor call is exactly this per-method value. -/
theorem claim_C8 (use_dask : Bool) (e : DaskGsa.ExternalModels)
    (names methods : List String) (dirs0 : List FsPath)
    (h : Registered (DaskGsa.models_dict e) names) :
    DaskGsa.runConstructions use_dask e names methods dirs0 =
      (pairsOf names methods).map
        (fun mg => DaskGsa.problemArgsFor (cfgOf (DaskGsa.models_dict e) mg.1) mg.2) ∧
    (∀ cfg : ModelConfig, DaskGsa.iterationsFor cfg "eFAST_indices" = some 130) ∧
    (∀ cfg : ModelConfig,
      DaskGsa.iterationsFor cfg "correlation_coefficients" = none) ∧
    (∀ (cfg : ModelConfig) (g : String),
      g ≠ "eFAST_indices" → g ≠ "correlation_coefficients" →
      DaskGsa.iterationsFor cfg g = some cfg.iterations) ∧
    (∀ (cfg : ModelConfig) (g : String),
      (DaskGsa.problemArgsFor cfg g).iterations = DaskGsa.iterationsFor cfg g) := by
  refine ⟨DaskGsa.runConstructions_eq use_dask e names methods dirs0 h,
    fun cfg => rfl, fun cfg => rfl, ?_, fun cfg g => rfl⟩
  intro cfg g h1 h2
  simp [DaskGsa.iterationsFor, h1, h2]

/-- Witness for C8 with all three override cases among the methods. -/
theorem claim_C8_witness :
    Registered (DaskGsa.models_dict eBW) DaskGsa.model_names ∧
    (DaskGsa.runConstructions false eBW DaskGsa.model_names
        ["correlation_coefficients", "eFAST_indices", "xgboost"] [] =
      (pairsOf DaskGsa.model_names
          ["correlation_coefficients", "eFAST_indices", "xgboost"]).map
        (fun mg => DaskGsa.problemArgsFor (cfgOf (DaskGsa.models_dict eBW) mg.1) mg.2) ∧
     (∀ cfg : ModelConfig, DaskGsa.iterationsFor cfg "eFAST_indices" = some 130) ∧
     (∀ cfg : ModelConfig,
       DaskGsa.iterationsFor cfg "correlation_coefficients" = none) ∧
     (∀ (cfg : ModelConfig) (g : String),
       g ≠ "eFAST_indices" → g ≠ "correlation_coefficients" →
       DaskGsa.iterationsFor cfg g = some cfg.iterations) ∧
     (∀ (cfg : ModelConfig) (g : String),
       (DaskGsa.problemArgsFor cfg g).iterations = DaskGsa.iterationsFor cfg g)) := by
  have hB : Registered (DaskGsa.models_dict eBW) DaskGsa.model_names := by
    intro n hn
    fin_cases hn
    decide
  exact ⟨hB, claim_C8 false eBW DaskGsa.model_names
    ["correlation_coefficients", "eFAST_indices", "xgboost"] [] hB⟩

/-- C9: in both notebooks, the iteration count of every registry entry is
    the parameter count of the model times the scaling constant of the
    entry. -/
theorem claim_C9 (eA : RunGsa.ExternalModels) (eB : DaskGsa.ExternalModels) :
    (∀ kv ∈ RunGsa.models_dict eA,
      kv.2.iterations = kv.2.model.num_params * kv.2.const) ∧
    (∀ kv ∈ DaskGsa.models_dict eB,
      kv.2.iterations = kv.2.model.num_params * kv.2.const) := by
  constructor
  · intro kv hkv
    simp only [RunGsa.models_dict, List.mem_cons, List.not_mem_nil, or_false] at hkv
    rcases hkv with rfl | rfl | rfl | rfl <;> rfl
  · intro kv hkv
    simp only [DaskGsa.models_dict, List.mem_cons, List.not_mem_nil, or_false] at hkv
    rcases hkv with rfl | rfl | rfl | rfl <;> rfl

/-- Witness for C9 at the concrete `lca` entry. -/
theorem claim_C9_witness :
    (("lca", lcaCfgW) ∈ RunGsa.models_dict eAW) ∧
    lcaCfgW.iterations = lcaCfgW.model.num_params * lcaCfgW.const := by
  have hmem : ("lca", lcaCfgW) ∈ RunGsa.models_dict eAW :=
    List.mem_cons_self _ _
  exact ⟨hmem, (claim_C9 eAW eBW).1 ("lca", lcaCfgW) hmem⟩

/-- C10: every Problem either driver constructs uses sampler "random",
    seed 34534 and no precomputed sample matrix; and the constructed
    value is a function of the (model, method) pair alone, so any two
    Problems for the same pair have identical arguments. -/
theorem claim_C10 (ext : RunGsa.External) (eA : RunGsa.ExternalModels)
    (eB : DaskGsa.ExternalModels) (use_dask : Bool)
    (names methods : List String) (dirs0 dirs1 : List FsPath)
    (hF : RunGsa.NoFailures ext)
    (hA : Registered (RunGsa.models_dict eA) names)
    (hB : Registered (DaskGsa.models_dict eB) names) :
    (∀ p ∈ RunGsa.constructedProblems
        (RunGsa.runDriver ext eA names methods dirs0).2.1,
      p.sampler = "random" ∧ p.seed = 34534 ∧ p.X = none) ∧
    (∀ a ∈ DaskGsa.runConstructions use_dask eB names methods dirs1,
      a.sampler = "random" ∧ a.seed = 34534 ∧ a.X = none) ∧
    RunGsa.constructedProblems
        (RunGsa.runDriver ext eA names methods dirs0).2.1 =
      (pairsOf names methods).map
        (fun mg => mkProblem
          (RunGsa.problemArgsFor (cfgOf (RunGsa.models_dict eA) mg.1) mg.2)) ∧
    DaskGsa.runConstructions use_dask eB names methods dirs1 =
      (pairsOf names methods).map
        (fun mg => DaskGsa.problemArgsFor (cfgOf (DaskGsa.models_dict eB) mg.1) mg.2) := by
  have hAeq : RunGsa.constructedProblems
      (RunGsa.runDriver ext eA names methods dirs0).2.1 =
      (pairsOf names methods).map
        (fun mg => mkProblem
          (RunGsa.problemArgsFor (cfgOf (RunGsa.models_dict eA) mg.1) mg.2)) :=
    RunGsa.modelsLoop_constructed ext methods hF names
      ⟨dirs0, RunGsa.models_dict eA⟩ hA
  have hBeq := DaskGsa.runConstructions_eq use_dask eB names methods dirs1 hB
  refine ⟨?_, ?_, hAeq, hBeq⟩
  · intro p hp
    rw [hAeq] at hp
    obtain ⟨mg, _, rfl⟩ := List.mem_map.mp hp
    exact ⟨rfl, rfl, rfl⟩
  · intro a ha
    rw [hBeq] at ha
    obtain ⟨mg, _, rfl⟩ := List.mem_map.mp ha
    exact ⟨rfl, rfl, rfl⟩

/-- Witness for C10 at the same concrete inputs as C1. -/
theorem claim_C10_witness :
    RunGsa.NoFailures extOk ∧
    Registered (RunGsa.models_dict eAW) RunGsa.model_names ∧
    Registered (DaskGsa.models_dict eBW) RunGsa.model_names ∧
    ((∀ p ∈ RunGsa.constructedProblems
        (RunGsa.runDriver extOk eAW RunGsa.model_names RunGsa.gsa_methods []).2.1,
       p.sampler = "random" ∧ p.seed = 34534 ∧ p.X = none) ∧
     (∀ a ∈ DaskGsa.runConstructions false eBW RunGsa.model_names RunGsa.gsa_methods [],
       a.sampler = "random" ∧ a.seed = 34534 ∧ a.X = none) ∧
     RunGsa.constructedProblems
        (RunGsa.runDriver extOk eAW RunGsa.model_names RunGsa.gsa_methods []).2.1 =
      (pairsOf RunGsa.model_names RunGsa.gsa_methods).map
        (fun mg => mkProblem
          (RunGsa.problemArgsFor (cfgOf (RunGsa.models_dict eAW) mg.1) mg.2)) ∧
     DaskGsa.runConstructions false eBW RunGsa.model_names RunGsa.gsa_methods [] =
      (pairsOf RunGsa.model_names RunGsa.gsa_methods).map
        (fun mg => DaskGsa.problemArgsFor (cfgOf (DaskGsa.models_dict eBW) mg.1) mg.2)) := by
  have hF : RunGsa.NoFailures extOk :=
    ⟨fun _ => rfl, fun _ => rfl, fun _ _ _ => rfl⟩
  have hA : Registered (RunGsa.models_dict eAW) RunGsa.model_names := by
    intro n hn
    fin_cases hn <;> decide
  have hB : Registered (DaskGsa.models_dict eBW) RunGsa.model_names := by
    intro n hn
    fin_cases hn <;> decide
  exact ⟨hF, hA, hB,
    claim_C10 extOk eAW eBW false RunGsa.model_names RunGsa.gsa_methods [] [] hF hA hB⟩

end GsaSpec
